import Mathlib

/-!
Shallow embedding of the throttling + caching core of `src/api/index.py`
(an HTTP gateway with a sliding-window rate limiter, a TTL response cache,
and two periodic cleanup sweeps), together with proofs about it.

Modelling conventions:
* `time.time()` values are modelled as `Int` (seconds); `int(x)` applied to
  an already-integral quantity is the identity and is dropped.
* Python `dict`s keyed by strings are modelled either as functions
  `κ → Option α` (when only per-key behaviour matters) or as association
  lists (when sizes/aggregates matter, as in `/stats`).
* A JSON payload (the upstream response body) is modelled as an ordered
  association list of fields over a small JSON-value type, mirroring a
  CPython dict's insertion-order semantics.
* Strings are modelled as `List Char` (Python `str` is a sequence of
  Unicode scalar values, which is exactly Lean's `Char`); the output of
  `urllib.parse.quote` is modelled as the list of code points of the
  resulting ASCII string.
-/

namespace HsSocialApi

/-! ## Rate limiter (`check_rate_limit`, src/api/index.py lines 89-107) -/

/-- Result of one rate-limit check: Python raises `HTTPException(429, ...)`
with a `retry_after` field on rejection, otherwise returns normally. -/
inductive RateResult where
  | accept : RateResult
  | reject (retry_after : Int) : RateResult
deriving DecidableEq, Repr

/-- Line 94: `[t for t in rate_logs[ip] if (now - t) < RATE_WINDOW]`. -/
def pruneWindow (RATE_WINDOW : Int) (now : Int) (w : List Int) : List Int :=
  w.filter (fun t => now - t < RATE_WINDOW)

/-- Function `check_rate_limit` (lines 89-107) acting on one client's timestamp list
`w` (`rate_logs[ip]`): prune, reject when the pruned list already holds at
least `RATE_LIMIT` entries (reporting
`RATE_WINDOW - (now - rate_logs[ip][0])`), otherwise append `now`.
Returns the decision together with the client's new timestamp list.
`headD 0` models `rate_logs[ip][0]`; the code only reaches that read with a
nonempty pruned list whenever `RATE_LIMIT ≥ 1`. -/
def check_rate_limit (RATE_LIMIT : Nat) (RATE_WINDOW : Int) (now : Int)
    (w : List Int) : RateResult × List Int :=
  let pruned := pruneWindow RATE_WINDOW now w
  if pruned.length ≥ RATE_LIMIT then
    (RateResult.reject (RATE_WINDOW - (now - pruned.headD 0)), pruned)
  else
    (RateResult.accept, pruned ++ [now])

/-! ## Cache primitives (src/api/index.py lines 27-28, 109-111, 147-159) -/

/-- A JSON value, as far as the gateway manipulates one. -/
inductive JVal where
  | num (n : Int) : JVal
  | bool (b : Bool) : JVal
  | str (s : String) : JVal
  | obj (fields : List (String × JVal)) : JVal

/-- A JSON object / Python dict body: ordered field list. -/
abbrev Dict := List (String × JVal)

/-- CPython `d[k] = v` on a dict: update the existing slot in place
(preserving its position) when `k` is present, otherwise append. -/
def dictSet (d : Dict) (k : String) (v : JVal) : Dict :=
  if d.any (fun p => p.1 = k) then
    d.map (fun p => if p.1 = k then (k, v) else p)
  else
    d ++ [(k, v)]

/-- Membership test `k in d` for a Python dict modelled as an ordered field list. -/
def dictHasKey (d : Dict) (k : String) : Bool :=
  d.any (fun p => p.1 = k)

/-- A byte belongs to the always-safe set of `urllib.parse.quote` with
`safe=""`: ASCII letters, digits, and `_.-~`. -/
def quoteSafe (b : Nat) : Bool :=
  (48 ≤ b && b ≤ 57) || (65 ≤ b && b ≤ 90) || (97 ≤ b && b ≤ 122) ||
    b = 45 || b = 46 || b = 95 || b = 126

/-- Code point of the uppercase hexadecimal digit for `n < 16`
(`%02X` formatting). -/
def hexDigit (n : Nat) : Nat :=
  if n < 10 then 48 + n else 55 + n

/-- Encoding of one byte by `quote`: a safe byte stands for itself, any other byte
becomes `%XX` in uppercase hex; the result is the code-point list of the
produced characters. -/
def quoteByte (b : Nat) : List Nat :=
  if quoteSafe b then [b] else [37, hexDigit (b / 16), hexDigit (b % 16)]

/-- UTF-8 encoding of one Unicode scalar value, as Python performs on the
`str` before percent-encoding its bytes. -/
def utf8Char (c : Char) : List Nat :=
  let v := c.toNat
  if v < 0x80 then [v]
  else if v < 0x800 then [0xC0 + v / 0x40, 0x80 + v % 0x40]
  else if v < 0x10000 then
    [0xE0 + v / 0x1000, 0x80 + v / 0x40 % 0x40, 0x80 + v % 0x40]
  else
    [0xF0 + v / 0x40000, 0x80 + v / 0x1000 % 0x40, 0x80 + v / 0x40 % 0x40,
      0x80 + v % 0x40]

/-- Function `get_cache_key` (lines 109-111): `urllib.parse.quote(url, safe="")`,
i.e. percent-encode every non-safe byte of the URL's UTF-8 encoding.
The URL is the `List Char` of its scalar values and the key is the
code-point list of the resulting ASCII string. -/
def get_cache_key (url : List Char) : List Nat :=
  ((url.map utf8Char).flatten).flatMap quoteByte

/-- Greedy inverse of the percent-encoding: a `%` starts a two-hex-digit
escape, any other code point stands for itself. Used only to prove
`get_cache_key` collision-free. -/
def hexVal (d : Nat) : Nat :=
  if d < 58 then d - 48 else d - 55

/-- Byte-level decoder for the percent-encoding. -/
def pctDecode : List Nat → List Nat
  | [] => []
  | [c] => [c]
  | [c, d] => [c, d]
  | c :: d :: e :: rest =>
    if c = 37 then (16 * hexVal d + hexVal e) :: pctDecode rest
    else c :: pctDecode (d :: e :: rest)

/-- Scalar-value decoder for UTF-8, sufficient for round-tripping the
encoder's own output: the leading byte selects the sequence length. -/
def utf8Decode : List Nat → List Nat
  | [] => []
  | b :: rest =>
    if b < 0x80 then
      b :: utf8Decode rest
    else if b < 0xE0 then
      ((b - 0xC0) * 0x40 + (rest.headD 0 - 0x80)) :: utf8Decode (rest.drop 1)
    else if b < 0xF0 then
      ((b - 0xE0) * 0x1000 + (rest.headD 0 - 0x80) * 0x40 +
        ((rest.drop 1).headD 0 - 0x80)) :: utf8Decode (rest.drop 2)
    else
      ((b - 0xF0) * 0x40000 + (rest.headD 0 - 0x80) * 0x1000 +
        ((rest.drop 1).headD 0 - 0x80) * 0x40 +
        ((rest.drop 2).headD 0 - 0x80)) :: utf8Decode (rest.drop 3)
termination_by l => l.length
decreasing_by all_goals simp <;> omega

/-- The cache-lookup logic inlined in `download` (lines 149-159), as a
read-only function: `Option (payload, age)`, `none` meaning a miss.
`(ts key).getD 0` models `cache_timestamps.get(cache_key, 0)`. -/
def cache_lookup (CACHE_TTL : Int) (now : Int)
    (cache : List Nat → Option Dict) (ts : List Nat → Option Int)
    (key : List Nat) : Option (Dict × Int) :=
  match cache key with
  | none => none
  | some p =>
      let age := now - (ts key).getD 0
      if age < CACHE_TTL then some (p, age) else none

/-! ## Janitor sweeps (src/api/index.py lines 31-53) -/

/-- One tick of `cleanup_old_logs` (lines 31-39) on the whole `rate_logs`
table (`none` meaning the client is absent): prune each known client's
timestamp list at time `now`, and delete the client when the pruned list
is empty. -/
def cleanup_old_logs (RATE_WINDOW now : Int)
    (logs : String → Option (List Int)) : String → Option (List Int) :=
  fun ip =>
    match logs ip with
    | none => none
    | some w =>
        let pruned := pruneWindow RATE_WINDOW now w
        if pruned.isEmpty then none else some pruned

/-- One tick of `cleanup_old_cache` (lines 42-53): every key whose
timestamp satisfies `(now - timestamp) > CACHE_TTL` is popped from both
`response_cache` and `cache_timestamps`; keys without a timestamp never
appear in `expired_keys` and are untouched. -/
def cleanup_old_cache (CACHE_TTL now : Int)
    (cache : List Nat → Option Dict) (ts : List Nat → Option Int) :
    (List Nat → Option Dict) × (List Nat → Option Int) :=
  (fun k =>
    match ts k with
    | some t => if now - t > CACHE_TTL then none else cache k
    | none => cache k,
   fun k =>
    match ts k with
    | some t => if now - t > CACHE_TTL then none else some t
    | none => none)

/-! ## The `download` handler (src/api/index.py lines 113-248) -/

/-- Outcome of the single outbound upstream call, as distinguished by the
handler's `except` clauses (lines 194-240). -/
inductive Upstream where
  | success (payload : Dict) : Upstream
  | connectTimeout : Upstream
  | readTimeout : Upstream
  | statusError (code : Nat) : Upstream
  | requestError : Upstream
  | jsonError : Upstream

/-- Externally visible result of one `download` request: a 200 body or the
raised HTTP error. -/
inductive Outcome where
  | ok (body : Dict) : Outcome              -- 200
  | throttled (retry_after : Int) : Outcome -- 429 (check_rate_limit)
  | invalidInput : Outcome                  -- 400 (missing url / bad scheme)
  | gatewayTimeout : Outcome                -- 504 (connect/read timeout)
  | externalError (code : Nat) : Outcome    -- 502 (upstream non-2xx)
  | badGateway : Outcome                    -- 502 (transport failure)
  | invalidResponse : Outcome               -- 502 (non-JSON body)

/-- The url parameter values that fail the handler's validation (lines
128-145): parameter absent, empty string (both falsy for `if not url:`),
or a nonempty value carrying neither recognized scheme. -/
def urlRejected (url : Option (List Char)) : Prop :=
  url = none ∨ url = some [] ∨
    ∃ u, url = some u ∧ u ≠ [] ∧
      ¬ (("http://".toList).isPrefixOf u ∨ ("https://".toList).isPrefixOf u)

/-- The `_cache` object injected into a response served from the cache
(lines 154-158). -/
def hitInfo (CACHE_TTL age : Int) : JVal :=
  JVal.obj [("hit", JVal.bool true), ("age_seconds", JVal.num age),
    ("ttl_seconds", JVal.num CACHE_TTL)]

/-- The `_cache` object added after a successful upstream call and store
(lines 186-190). -/
def missInfo (CACHE_TTL : Int) : JVal :=
  JVal.obj [("hit", JVal.bool false), ("stored", JVal.bool true),
    ("ttl_seconds", JVal.num CACHE_TTL)]

/-- Handler `download` (lines 113-248) for one request, acting on the requesting
client's timestamp list `w` and the two cache tables; `upstream` is
consulted if and when the code performs the outbound call. The rate-limit
check (line 126) runs before URL validation (lines 128-145). On the cache
path, `{**response_cache[cache_key], "_cache": {...}}` is `dictSet` of the
cached dict. At lines 181-190 Python stores a reference:
`response_cache[cache_key] = result` and the later in-place mutation
`result["_cache"] = {...}` are visible through the same dict object, so
the cache entry ends up holding the annotated dict. Returns the outcome
with the updated window and cache tables. -/
def download (RATE_LIMIT : Nat) (RATE_WINDOW CACHE_TTL now : Int)
    (url : Option (List Char)) (nocache : Bool) (upstream : Upstream)
    (w : List Int) (cache : List Nat → Option Dict)
    (ts : List Nat → Option Int) :
    Outcome × List Int × (List Nat → Option Dict) × (List Nat → Option Int) :=
  match check_rate_limit RATE_LIMIT RATE_WINDOW now w with
  | (RateResult.reject r, w2) => (Outcome.throttled r, w2, cache, ts)
  | (RateResult.accept, w2) =>
    match url with
    | none => (Outcome.invalidInput, w2, cache, ts)
    | some u =>
      if u.isEmpty then (Outcome.invalidInput, w2, cache, ts)
      else if ¬ (("http://".toList).isPrefixOf u ∨
                 ("https://".toList).isPrefixOf u) then
        (Outcome.invalidInput, w2, cache, ts)
      else
        let key := get_cache_key u
        match (if nocache then none else cache_lookup CACHE_TTL now cache ts key) with
        | some (p, age) =>
            (Outcome.ok (dictSet p "_cache" (hitInfo CACHE_TTL age)),
             w2, cache, ts)
        | none =>
            match upstream with
            | Upstream.success payload =>
                let result := dictSet payload "_cache" (missInfo CACHE_TTL)
                (Outcome.ok result, w2,
                 fun k => if k = key then some result else cache k,
                 fun k => if k = key then some now else ts k)
            | Upstream.connectTimeout => (Outcome.gatewayTimeout, w2, cache, ts)
            | Upstream.readTimeout => (Outcome.gatewayTimeout, w2, cache, ts)
            | Upstream.statusError c => (Outcome.externalError c, w2, cache, ts)
            | Upstream.requestError => (Outcome.badGateway, w2, cache, ts)
            | Upstream.jsonError => (Outcome.invalidResponse, w2, cache, ts)

/-! ## `/stats` (src/api/index.py lines 269-290) -/

/-- Value `len(rate_logs)` — the `active_ips` field. -/
def stats_active_ips (logs : List (String × List Int)) : Nat := logs.length

/-- Value `sum(len(logs) for logs in rate_logs.values())` — the
`total_recent_requests` field. -/
def stats_total_requests (logs : List (String × List Int)) : Nat :=
  (logs.map (fun p => p.2.length)).sum

/-- Value `len(response_cache)` — the cache `items` field. -/
def stats_cache_items (cache : List (List Nat × Dict)) : Nat := cache.length

/-- Value `max(cache_timestamps.values()) if cache_timestamps else 0` — the
`max_age` field of the stats response. -/
def stats_max_age (ts : List (List Nat × Int)) : Int :=
  ((ts.map Prod.snd).max?).getD 0

/-- The timestamp the spec describes for that field: the oldest cache
entry's storage timestamp (minimum over stored timestamps), for comparison
with `stats_max_age`. -/
def specOldestTimestamp (ts : List (List Nat × Int)) : Int :=
  ((ts.map Prod.snd).min?).getD 0

/-! ## Rate-limiter theorems -/

/-- Claim C1: the limit is inclusive — a pruned window already holding
`RATE_LIMIT` timestamps makes the next check reject with nothing appended;
on admission exactly one timestamp, the current time, is appended; and a
window holding at most `RATE_LIMIT` admissions still does after any check,
so at most `RATE_LIMIT` admissions stand in any trailing
`RATE_WINDOW`-second interval. -/
theorem C1_rate_limit_inclusive (RATE_LIMIT : Nat) (RATE_WINDOW now : Int)
    (w : List Int) :
    (RATE_LIMIT ≤ (pruneWindow RATE_WINDOW now w).length →
      check_rate_limit RATE_LIMIT RATE_WINDOW now w =
        (RateResult.reject
           (RATE_WINDOW - (now - (pruneWindow RATE_WINDOW now w).headD 0)),
         pruneWindow RATE_WINDOW now w)) ∧
    ((pruneWindow RATE_WINDOW now w).length < RATE_LIMIT →
      check_rate_limit RATE_LIMIT RATE_WINDOW now w =
        (RateResult.accept, pruneWindow RATE_WINDOW now w ++ [now])) ∧
    (w.length ≤ RATE_LIMIT →
      (check_rate_limit RATE_LIMIT RATE_WINDOW now w).2.length ≤ RATE_LIMIT) := by
  have hle : (pruneWindow RATE_WINDOW now w).length ≤ w.length :=
    List.length_filter_le _ w
  refine ⟨fun h => ?_, fun h => ?_, fun h => ?_⟩
  · simp only [check_rate_limit, ge_iff_le, if_pos h]
  · simp only [check_rate_limit, ge_iff_le, if_neg (Nat.not_le.mpr h)]
  · by_cases hc : RATE_LIMIT ≤ (pruneWindow RATE_WINDOW now w).length
    · simp only [check_rate_limit, ge_iff_le, if_pos hc]
      omega
    · simp only [check_rate_limit, ge_iff_le, if_neg hc, List.length_append,
        List.length_cons, List.length_nil]
      omega

/-- Witness for C1 on the spec's own scenario (`RATE_LIMIT=2`,
`RATE_WINDOW=60`): the third request at t=2 is rejected with retry 58, the
second at t=1 is admitted appending exactly `1`. -/
theorem C1_witness :
    check_rate_limit 2 60 2 [0, 1] = (RateResult.reject 58, [0, 1]) ∧
    check_rate_limit 2 60 1 [0] = (RateResult.accept, [0, 1]) := by
  constructor
  · exact ((C1_rate_limit_inclusive 2 60 2 [0, 1]).1 (by decide)).trans (by decide)
  · exact ((C1_rate_limit_inclusive 2 60 1 [0]).2.1 (by decide)).trans (by decide)

/-- Claim C5: on rejection, the reported retry equals
`RATE_WINDOW - (now - oldest)` where `oldest` is the head of the pruned
window, which (for a sorted window) is its earliest remaining timestamp. -/
theorem C5_retry_after (RATE_LIMIT : Nat) (RATE_WINDOW now : Int)
    (w : List Int) (hsorted : w.Sorted (· ≤ ·)) (hpos : 1 ≤ RATE_LIMIT)
    (hfull : RATE_LIMIT ≤ (pruneWindow RATE_WINDOW now w).length) :
    check_rate_limit RATE_LIMIT RATE_WINDOW now w =
      (RateResult.reject
         (RATE_WINDOW - (now - (pruneWindow RATE_WINDOW now w).headD 0)),
       pruneWindow RATE_WINDOW now w) ∧
    (pruneWindow RATE_WINDOW now w).headD 0 ∈ pruneWindow RATE_WINDOW now w ∧
    ∀ t ∈ pruneWindow RATE_WINDOW now w,
      (pruneWindow RATE_WINDOW now w).headD 0 ≤ t := by
  have hps : (pruneWindow RATE_WINDOW now w).Sorted (· ≤ ·) :=
    List.Pairwise.filter _ hsorted
  refine ⟨by simp only [check_rate_limit, ge_iff_le, if_pos hfull], ?_, ?_⟩
  · match hp : pruneWindow RATE_WINDOW now w with
    | [] => rw [hp] at hfull; simp at hfull; omega
    | a :: t => simp
  · match hp : pruneWindow RATE_WINDOW now w with
    | [] => rw [hp] at hfull; simp at hfull; omega
    | a :: t =>
      rw [hp] at hps
      intro x hx
      rcases List.mem_cons.mp hx with rfl | hx
      · simp
      · simpa using (List.pairwise_cons.mp hps).1 x hx

/-- Witness for C5: one client, `RATE_LIMIT=1`, window `[0]` at t=2. -/
theorem C5_witness :
    check_rate_limit 1 60 2 [0] = (RateResult.reject 58, [0]) ∧
    (0 : Int) ∈ pruneWindow 60 2 [0] := by
  have h := C5_retry_after 1 60 2 [0] (by simp) (by decide) (by decide)
  exact ⟨h.1.trans (by decide), by simpa using h.2.1⟩

/-- Claim C6: if a check from a window of at most `RATE_LIMIT` timestamps
rejects with retry `r`, a later check at any time `now + r` or after, on
the window the rejection left behind, admits. -/
theorem C6_retry_after_admits (RATE_LIMIT : Nat) (RATE_WINDOW now now2 r : Int)
    (w w2 : List Int) (hlen : w.length ≤ RATE_LIMIT) (hpos : 1 ≤ RATE_LIMIT)
    (hrej : check_rate_limit RATE_LIMIT RATE_WINDOW now w =
      (RateResult.reject r, w2))
    (hwait : now + r ≤ now2) :
    (check_rate_limit RATE_LIMIT RATE_WINDOW now2 w2).1 = RateResult.accept := by
  have hle : (pruneWindow RATE_WINDOW now w).length ≤ w.length :=
    List.length_filter_le _ w
  by_cases hc : RATE_LIMIT ≤ (pruneWindow RATE_WINDOW now w).length
  · simp only [check_rate_limit, ge_iff_le, if_pos hc, Prod.mk.injEq,
      RateResult.reject.injEq] at hrej
    obtain ⟨hr, hw2⟩ := hrej
    match hp : pruneWindow RATE_WINDOW now w with
    | [] => rw [hp] at hc; simp at hc; omega
    | a :: t =>
      rw [hp] at hr hw2 hc hle
      simp only [List.headD_cons] at hr
      have ha : ¬ (now2 - a < RATE_WINDOW) := by omega
      have hlt : (pruneWindow RATE_WINDOW now2 w2).length < RATE_LIMIT := by
        rw [← hw2, pruneWindow, List.filter_cons_of_neg (by simpa using ha)]
        have := List.length_filter_le (fun x => decide (now2 - x < RATE_WINDOW)) t
        simp only [List.length_cons] at hc hle
        omega
      simp only [check_rate_limit, ge_iff_le, if_neg (Nat.not_le.mpr hlt)]
  · simp only [check_rate_limit, ge_iff_le, if_neg hc] at hrej
    exact absurd (congrArg Prod.fst hrej) (by simp)

/-- Witness for C6: `RATE_LIMIT=2`, rejection at t=2 over `[0,1]` reports
retry 58; the next check at t=60 admits. -/
theorem C6_witness :
    (check_rate_limit 2 60 60 [0, 1]).1 = RateResult.accept := by
  exact C6_retry_after_admits 2 60 2 60 58 [0, 1] [0, 1] (by decide) (by decide)
    (by decide) (by decide)

/-! ## Handler theorems -/

/-- Claim C2 fails on the code: a request with a full window and a missing
url is throttled (429), not rejected as invalid input, and a request with
a missing url from a client with an empty window still appends the current
time to that client's rate-limit window. -/
theorem C2_counterexample :
    (download 5 60 300 0 none false Upstream.requestError [0, 0, 0, 0, 0]
        (fun _ => none) (fun _ => none)).1 = Outcome.throttled 60 ∧
    (download 5 60 300 0 none false Upstream.requestError []
        (fun _ => none) (fun _ => none)).2.1 = [0] := by
  exact ⟨rfl, rfl⟩

/-- Claim C2 amended: the rate-limit check (line 126) runs before URL
validation (lines 128-145). A client whose pruned window is full is
throttled whatever the url; an admitted request whose url fails
validation gets 400 only after the current time has been appended to the
window, so it does consume a rate-limit slot. -/
theorem C2_rate_check_first (RATE_LIMIT : Nat) (RATE_WINDOW CACHE_TTL now : Int)
    (url : Option (List Char)) (nocache : Bool) (up : Upstream) (w : List Int)
    (cache : List Nat → Option Dict) (ts : List Nat → Option Int) :
    (RATE_LIMIT ≤ (pruneWindow RATE_WINDOW now w).length →
      download RATE_LIMIT RATE_WINDOW CACHE_TTL now url nocache up w cache ts =
        (Outcome.throttled
           (RATE_WINDOW - (now - (pruneWindow RATE_WINDOW now w).headD 0)),
         pruneWindow RATE_WINDOW now w, cache, ts)) ∧
    ((pruneWindow RATE_WINDOW now w).length < RATE_LIMIT → urlRejected url →
      download RATE_LIMIT RATE_WINDOW CACHE_TTL now url nocache up w cache ts =
        (Outcome.invalidInput, pruneWindow RATE_WINDOW now w ++ [now],
         cache, ts)) := by
  constructor
  · intro h
    simp only [download, check_rate_limit, ge_iff_le, if_pos h]
  · intro h hu
    have h' : ¬ RATE_LIMIT ≤ (pruneWindow RATE_WINDOW now w).length :=
      Nat.not_le.mpr h
    rcases hu with rfl | rfl | ⟨u, rfl, hne, hbad⟩
    · simp only [download, check_rate_limit, ge_iff_le, if_neg h']
    · simp only [download, check_rate_limit, ge_iff_le, if_neg h',
        List.isEmpty_nil, if_true]
    · have hie : u.isEmpty = false := by
        cases u with
        | nil => exact absurd rfl hne
        | cons a l => rfl
      simp only [download, check_rate_limit, ge_iff_le, if_neg h', hie,
        Bool.false_eq_true, if_false, if_pos hbad]

/-- Witness for C2's amended version: a full window throttles a request
with url `"ftp://x"`; an admitted request with that url consumes a slot. -/
theorem C2_amended_witness :
    download 1 60 300 5 (some "ftp://x".toList) false Upstream.requestError
        [0] (fun _ => none) (fun _ => none) =
      (Outcome.throttled 55, [0], fun _ => none, fun _ => none) ∧
    download 1 60 300 5 (some "ftp://x".toList) false Upstream.requestError
        [] (fun _ => none) (fun _ => none) =
      (Outcome.invalidInput, [5], fun _ => none, fun _ => none) := by
  have h1 := (C2_rate_check_first 1 60 300 5 (some "ftp://x".toList) false
    Upstream.requestError [0] (fun _ => none) (fun _ => none)).1 (by decide)
  have h2 := (C2_rate_check_first 1 60 300 5 (some "ftp://x".toList) false
    Upstream.requestError [] (fun _ => none) (fun _ => none)).2 (by decide)
    (Or.inr (Or.inr ⟨"ftp://x".toList, rfl, by decide, by decide⟩))
  exact ⟨by simpa using h1, by simpa using h2⟩

/-- Claim C3: cache lookup is a Miss when no entry exists or when
`now - stored_at ≥ CACHE_TTL` (exactly `CACHE_TTL` counts as expired), is
a Hit carrying the stored payload and age `now - stored_at` when
`now - stored_at < CACHE_TTL`, and deletes nothing — a whole request that
performs no successful store returns the cache table unchanged, so a stale
entry stays in place for the Janitor. -/
theorem C3_lookup_semantics (RATE_LIMIT : Nat) (RATE_WINDOW CACHE_TTL now : Int)
    (url : Option (List Char)) (nocache : Bool) (w : List Int)
    (cache : List Nat → Option Dict) (ts : List Nat → Option Int)
    (key : List Nat) :
    (cache key = none → cache_lookup CACHE_TTL now cache ts key = none) ∧
    (∀ p t, cache key = some p → ts key = some t → CACHE_TTL ≤ now - t →
      cache_lookup CACHE_TTL now cache ts key = none) ∧
    (∀ p t, cache key = some p → ts key = some t → now - t < CACHE_TTL →
      cache_lookup CACHE_TTL now cache ts key = some (p, now - t)) ∧
    (download RATE_LIMIT RATE_WINDOW CACHE_TTL now url nocache
        Upstream.requestError w cache ts).2.2.1 = cache := by
  refine ⟨fun h => ?_, fun p t hc ht hst => ?_, fun p t hc ht hfr => ?_, ?_⟩
  · simp only [cache_lookup, h]
  · simp only [cache_lookup, hc, ht, Option.getD_some,
      if_neg (not_lt.mpr hst)]
  · simp only [cache_lookup, hc, ht, Option.getD_some, if_pos hfr]
  · unfold download
    repeat' split
    all_goals first | rfl | (simp_all; done) | (dsimp only []; split <;> rfl)

/-- Witness for C3 on the spec scenario (`CACHE_TTL=300`, store at t=0):
lookup at t=100 hits with age 100, lookup at t=400 misses. -/
theorem C3_witness :
    cache_lookup 300 100 (fun _ => some [("x", JVal.num 1)])
      (fun _ => some 0) [] = some ([("x", JVal.num 1)], 100) ∧
    cache_lookup 300 400 (fun _ => some [("x", JVal.num 1)])
      (fun _ => some 0) [] = none := by
  have h1 := (C3_lookup_semantics 5 60 300 100 none false []
    (fun _ => some [("x", JVal.num 1)]) (fun _ => some 0) []).2.2.1
    [("x", JVal.num 1)] 0 rfl rfl (by decide)
  have h2 := (C3_lookup_semantics 5 60 300 400 none false []
    (fun _ => some [("x", JVal.num 1)]) (fun _ => some 0) []).2.1
    [("x", JVal.num 1)] 0 rfl rfl (by decide)
  exact ⟨by simpa using h1, h2⟩

/-- Claim C4 is violated by the code: after a successful upstream call for
payload `{"x": 1}`, the cache entry holds the payload *plus* the `_cache`
annotation, because `response_cache[cache_key] = result` stores the very
dict object that `result["_cache"] = {...}` then mutates for the response.
The stored value is not exactly the upstream payload. -/
theorem C4_cached_entry_annotated :
    (download 5 60 300 0 (some "http://a".toList) false
        (Upstream.success [("x", JVal.num 1)]) [] (fun _ => none)
        (fun _ => none)).2.2.1 (get_cache_key "http://a".toList) =
      some [("x", JVal.num 1), ("_cache", missInfo 300)] ∧
    some [("x", JVal.num 1), ("_cache", missInfo 300)] ≠
      some ([("x", JVal.num 1)] : Dict) := by
  refine ⟨rfl, by simp⟩

/-- Claim C7: with `nocache=true`, a validated and admitted request skips
the cache lookup even though a fresh entry exists — a successful upstream
call returns the freshly annotated upstream body and overwrites the
entry's payload and timestamp, and a failing upstream call surfaces the
upstream error rather than the fresh cached payload. -/
theorem C7_nocache_bypass (RATE_LIMIT : Nat) (RATE_WINDOW CACHE_TTL now t0 : Int)
    (u : List Char) (payload p0 : Dict) (w : List Int)
    (cache : List Nat → Option Dict) (ts : List Nat → Option Int)
    (hadm : (pruneWindow RATE_WINDOW now w).length < RATE_LIMIT)
    (hne : u ≠ [])
    (hscheme : ("http://".toList).isPrefixOf u ∨ ("https://".toList).isPrefixOf u)
    (hc : cache (get_cache_key u) = some p0)
    (ht : ts (get_cache_key u) = some t0)
    (_hfresh : now - t0 < CACHE_TTL) :
    download RATE_LIMIT RATE_WINDOW CACHE_TTL now (some u) true
        (Upstream.success payload) w cache ts =
      (Outcome.ok (dictSet payload "_cache" (missInfo CACHE_TTL)),
       pruneWindow RATE_WINDOW now w ++ [now],
       fun k => if k = get_cache_key u then
         some (dictSet payload "_cache" (missInfo CACHE_TTL)) else cache k,
       fun k => if k = get_cache_key u then some now else ts k) ∧
    download RATE_LIMIT RATE_WINDOW CACHE_TTL now (some u) true
        Upstream.readTimeout w cache ts =
      (Outcome.gatewayTimeout, pruneWindow RATE_WINDOW now w ++ [now],
       cache, ts) := by
  have h' : ¬ RATE_LIMIT ≤ (pruneWindow RATE_WINDOW now w).length :=
    Nat.not_le.mpr hadm
  have hie : u.isEmpty = false := by
    cases u with
    | nil => exact absurd rfl hne
    | cons a l => rfl
  constructor <;>
    simp only [download, check_rate_limit, ge_iff_le, if_neg h', hie,
      Bool.false_eq_true, if_false, if_neg (not_not_intro hscheme),
      if_true]

/-- Witness for C7: a fresh entry for `http://a` exists at t=10 yet
`nocache=true` refetches and refreshes it. -/
theorem C7_witness :
    download 5 60 300 10 (some "http://a".toList) true
        (Upstream.success [("x", JVal.num 2)]) []
        (fun _ => some [("x", JVal.num 1)]) (fun _ => some 0) =
      (Outcome.ok [("x", JVal.num 2), ("_cache", missInfo 300)], [10],
       fun k => if k = get_cache_key "http://a".toList then
         some [("x", JVal.num 2), ("_cache", missInfo 300)]
       else some [("x", JVal.num 1)],
       fun k => if k = get_cache_key "http://a".toList then some 10
       else some 0) := by
  have h := (C7_nocache_bypass 5 60 300 10 0 "http://a".toList
    [("x", JVal.num 2)] [("x", JVal.num 1)] []
    (fun _ => some [("x", JVal.num 1)]) (fun _ => some 0)
    (by decide) (by decide) (Or.inl (by decide)) rfl rfl (by decide)).1
  simpa [dictSet] using h

/-! ## Janitor theorems -/

/-- Claim C8: a rate-sweep tick prunes every known client's sequence to
the timestamps within `RATE_WINDOW` of now, deleting the client exactly
when the pruned sequence is empty, and a cache-sweep tick deletes payload
and timestamp together precisely for the entries whose age strictly
exceeds `CACHE_TTL`, leaving every younger entry (age ≤ TTL) intact. -/
theorem C8_janitor_sweeps (RATE_WINDOW CACHE_TTL now : Int)
    (logs : String → Option (List Int)) (cache : List Nat → Option Dict)
    (ts : List Nat → Option Int) :
    (∀ ip w, logs ip = some w →
      (∀ t, t ∈ pruneWindow RATE_WINDOW now w ↔
        (t ∈ w ∧ now - t < RATE_WINDOW)) ∧
      (pruneWindow RATE_WINDOW now w = [] →
        cleanup_old_logs RATE_WINDOW now logs ip = none) ∧
      (pruneWindow RATE_WINDOW now w ≠ [] →
        cleanup_old_logs RATE_WINDOW now logs ip =
          some (pruneWindow RATE_WINDOW now w))) ∧
    (∀ ip, logs ip = none → cleanup_old_logs RATE_WINDOW now logs ip = none) ∧
    (∀ k t, ts k = some t → CACHE_TTL < now - t →
      (cleanup_old_cache CACHE_TTL now cache ts).1 k = none ∧
      (cleanup_old_cache CACHE_TTL now cache ts).2 k = none) ∧
    (∀ k t, ts k = some t → now - t ≤ CACHE_TTL →
      (cleanup_old_cache CACHE_TTL now cache ts).1 k = cache k ∧
      (cleanup_old_cache CACHE_TTL now cache ts).2 k = some t) := by
  refine ⟨fun ip w hw => ⟨fun t => ?_, fun hp => ?_, fun hp => ?_⟩,
    fun ip hip => ?_, fun k t htk hexp => ?_, fun k t htk hyoung => ?_⟩
  · simp [pruneWindow, List.mem_filter]
  · simp [cleanup_old_logs, hw, List.isEmpty_iff, hp]
  · simp [cleanup_old_logs, hw, List.isEmpty_iff, hp]
  · simp [cleanup_old_logs, hip]
  · constructor <;> simp [cleanup_old_cache, htk, hexp]
  · constructor <;> simp [cleanup_old_cache, htk, not_lt.mpr hyoung]

/-- Witness for C8: a client whose only timestamp aged out is deleted, one
with a recent timestamp is kept pruned; a cache entry of age 301 > TTL=300
is removed from both tables while one of age 300 stays. -/
theorem C8_witness :
    cleanup_old_logs 60 100 (fun _ => some [0, 90]) "a" = some [90] ∧
    cleanup_old_logs 60 100 (fun _ => some [0]) "b" = none ∧
    (cleanup_old_cache 300 301 (fun _ => some [("x", JVal.num 1)])
      (fun _ => some 0)).1 [] = none ∧
    (cleanup_old_cache 300 300 (fun _ => some [("x", JVal.num 1)])
      (fun _ => some 0)).1 [] = some [("x", JVal.num 1)] := by
  have h1 := ((C8_janitor_sweeps 60 300 100 (fun _ => some [0, 90])
    (fun _ => none) (fun _ => none)).1 "a" [0, 90] rfl).2.2 (by decide)
  have h2 := ((C8_janitor_sweeps 60 300 100 (fun _ => some [0])
    (fun _ => none) (fun _ => none)).1 "b" [0] rfl).2.1 (by decide)
  have h3 := ((C8_janitor_sweeps 60 300 301 (fun _ => none)
    (fun _ => some [("x", JVal.num 1)]) (fun _ => some 0)).2.2.1 [] 0
    rfl (by decide)).1
  have h4 := ((C8_janitor_sweeps 60 300 300 (fun _ => none)
    (fun _ => some [("x", JVal.num 1)]) (fun _ => some 0)).2.2.2 [] 0
    rfl (by decide)).1
  exact ⟨by simpa using h1, h2, h3, h4⟩

/-! ## Cache-key theorems -/

/-- Every Unicode scalar value is below `0x110000`. -/
theorem char_toNat_lt (c : Char) : c.toNat < 0x110000 := by
  have h := c.valid
  simp only [Char.toNat]
  rcases h with h | h <;> omega

/-- Scalar values determine characters. -/
theorem char_toNat_inj {a b : Char} (h : a.toNat = b.toNat) : a = b := by
  apply Char.eq_of_val_eq
  simp only [Char.toNat] at h
  exact UInt32.toNat.inj h

/-- The percent sign (code point 37) is not in the always-safe set. -/
theorem quoteSafe_ne (b : Nat) (h : quoteSafe b = true) : b ≠ 37 := by
  simp [quoteSafe] at h
  omega

/-- Reading back an uppercase hex digit recovers the nibble. -/
theorem hexVal_hexDigit (n : Nat) (h : n < 16) : hexVal (hexDigit n) = n := by
  simp only [hexDigit, hexVal]
  split_ifs <;> omega

/-- Decoding peels exactly one percent-encoded byte off the front. -/
theorem pctDecode_quoteByte (b : Nat) (hb : b < 256) (r : List Nat) :
    pctDecode (quoteByte b ++ r) = b :: pctDecode r := by
  by_cases hs : quoteSafe b
  · have hb37 : b ≠ 37 := quoteSafe_ne b hs
    simp only [quoteByte, if_pos hs, List.cons_append, List.nil_append]
    match r with
    | [] => simp [pctDecode]
    | [d] => simp [pctDecode]
    | d :: e :: r2 => simp [pctDecode, hb37]
  · simp only [quoteByte, if_neg hs, List.cons_append, List.nil_append]
    have h1 : hexVal (hexDigit (b / 16)) = b / 16 := hexVal_hexDigit _ (by omega)
    have h2 : hexVal (hexDigit (b % 16)) = b % 16 := hexVal_hexDigit _ (by omega)
    simp only [pctDecode, h1, h2, if_true, eq_self_iff_true, List.cons.injEq]
    exact ⟨by omega, trivial⟩

/-- Decoding inverts the percent-encoding of any byte string. -/
theorem pctDecode_flatMap (bs : List Nat) (hb : ∀ b ∈ bs, b < 256) :
    pctDecode (bs.flatMap quoteByte) = bs := by
  induction bs with
  | nil => rfl
  | cons b t ih =>
    rw [List.flatMap_cons, pctDecode_quoteByte b (hb b (by simp)),
      ih (fun x hx => hb x (by simp [hx]))]

/-- UTF-8 code units are bytes. -/
theorem utf8Char_lt (c : Char) : ∀ b ∈ utf8Char c, b < 256 := by
  have hv : c.toNat < 0x110000 := char_toNat_lt c
  intro b hb
  simp only [utf8Char] at hb
  split_ifs at hb <;> simp at hb <;> omega

/-- Unfolding of the UTF-8 decoder at a nonempty list. -/
theorem utf8Decode_cons (b : Nat) (rest : List Nat) :
    utf8Decode (b :: rest) =
      if b < 0x80 then
        b :: utf8Decode rest
      else if b < 0xE0 then
        ((b - 0xC0) * 0x40 + (rest.headD 0 - 0x80)) :: utf8Decode (rest.drop 1)
      else if b < 0xF0 then
        ((b - 0xE0) * 0x1000 + (rest.headD 0 - 0x80) * 0x40 +
          ((rest.drop 1).headD 0 - 0x80)) :: utf8Decode (rest.drop 2)
      else
        ((b - 0xF0) * 0x40000 + (rest.headD 0 - 0x80) * 0x1000 +
          ((rest.drop 1).headD 0 - 0x80) * 0x40 +
          ((rest.drop 2).headD 0 - 0x80)) :: utf8Decode (rest.drop 3) := by
  conv_lhs => rw [utf8Decode]

/-- Decoding peels exactly one UTF-8-encoded scalar value off the front. -/
theorem utf8Decode_utf8Char (c : Char) (r : List Nat) :
    utf8Decode (utf8Char c ++ r) = c.toNat :: utf8Decode r := by
  have hv : c.toNat < 0x110000 := char_toNat_lt c
  simp only [utf8Char]
  split_ifs with h1 h2 h3
  · rw [List.cons_append, List.nil_append, utf8Decode_cons, if_pos h1]
  · have hb1 : ¬ (0xC0 + c.toNat / 0x40 < 0x80) := by omega
    have hb2 : 0xC0 + c.toNat / 0x40 < 0xE0 := by omega
    rw [List.cons_append, List.cons_append, List.nil_append, utf8Decode_cons,
      if_neg hb1, if_pos hb2]
    simp only [List.headD_cons, List.drop_succ_cons, List.drop_zero,
      List.cons.injEq]
    exact ⟨by omega, trivial⟩
  · have hb1 : ¬ (0xE0 + c.toNat / 0x1000 < 0x80) := by omega
    have hb2 : ¬ (0xE0 + c.toNat / 0x1000 < 0xE0) := by omega
    have hb3 : 0xE0 + c.toNat / 0x1000 < 0xF0 := by omega
    rw [List.cons_append, List.cons_append, List.cons_append, List.nil_append,
      utf8Decode_cons, if_neg hb1, if_neg hb2, if_pos hb3]
    simp only [List.headD_cons, List.drop_succ_cons, List.drop_zero,
      List.cons.injEq]
    exact ⟨by omega, trivial⟩
  · have hb1 : ¬ (0xF0 + c.toNat / 0x40000 < 0x80) := by omega
    have hb2 : ¬ (0xF0 + c.toNat / 0x40000 < 0xE0) := by omega
    have hb3 : ¬ (0xF0 + c.toNat / 0x40000 < 0xF0) := by omega
    rw [List.cons_append, List.cons_append, List.cons_append,
      List.cons_append, List.nil_append, utf8Decode_cons, if_neg hb1,
      if_neg hb2, if_neg hb3]
    simp only [List.headD_cons, List.drop_succ_cons, List.drop_zero,
      List.cons.injEq]
    exact ⟨by omega, trivial⟩

/-- Decoding inverts the UTF-8 encoding of any scalar-value string. -/
theorem utf8Decode_flatten (cs : List Char) :
    utf8Decode ((cs.map utf8Char).flatten) = cs.map Char.toNat := by
  induction cs with
  | nil => rw [List.map_nil, List.flatten_nil, List.map_nil, utf8Decode]
  | cons c t ih =>
    rw [List.map_cons, List.flatten_cons, utf8Decode_utf8Char, ih,
      List.map_cons]

/-- Claim C9: the cache key is a pure function of the URL string alone
(its definition takes nothing else) and is collision-free — two URLs with
the same key are the same string, because percent-encoding over the UTF-8
bytes is injective. -/
theorem C9_cache_key_injective (u1 u2 : List Char)
    (h : get_cache_key u1 = get_cache_key u2) : u1 = u2 := by
  have hb1 : ∀ b ∈ (u1.map utf8Char).flatten, b < 256 := by
    intro b hb
    rcases List.mem_flatten.mp hb with ⟨l, hl, hbl⟩
    rcases List.mem_map.mp hl with ⟨c, _, rfl⟩
    exact utf8Char_lt c b hbl
  have hb2 : ∀ b ∈ (u2.map utf8Char).flatten, b < 256 := by
    intro b hb
    rcases List.mem_flatten.mp hb with ⟨l, hl, hbl⟩
    rcases List.mem_map.mp hl with ⟨c, _, rfl⟩
    exact utf8Char_lt c b hbl
  have hflat : (u1.map utf8Char).flatten = (u2.map utf8Char).flatten := by
    have hd := congrArg pctDecode h
    rwa [get_cache_key, get_cache_key, pctDecode_flatMap _ hb1,
      pctDecode_flatMap _ hb2] at hd
  have hnat : u1.map Char.toNat = u2.map Char.toNat := by
    have hd := congrArg utf8Decode hflat
    rwa [utf8Decode_flatten, utf8Decode_flatten] at hd
  exact List.map_injective_iff.mpr (fun a b hab => char_toNat_inj hab) hnat

/-- Witness for C9 at a concrete URL. -/
theorem C9_witness : ("http://a b".toList : List Char) = "http://a b".toList :=
  C9_cache_key_injective _ _ rfl

/-! ## `/stats` theorems -/

/-- Claim C10 fails on the code: with entries stored at t=10 and t=20 the
`max_age` field reports 20 — `max(cache_timestamps.values())`, the newest
timestamp — while the oldest storage timestamp is 10. -/
theorem C10_counterexample :
    stats_max_age [([1], 10), ([2], 20)] = 20 ∧
    specOldestTimestamp [([1], 10), ([2], 20)] = 10 ∧
    (20 : Int) ≠ 10 := ⟨rfl, rfl, by decide⟩

/-- Claim C10 amended: `/stats` reports the active client count, the total
recent request count, the cache item count, and — in the `max_age` field —
the *newest* cache entry's storage timestamp: a stored timestamp that is
at least every other stored timestamp, not the oldest one. -/
theorem C10_stats_fields (logs : List (String × List Int))
    (cache : List (List Nat × Dict)) (ts : List (List Nat × Int))
    (h : ts ≠ []) :
    stats_active_ips logs = logs.length ∧
    stats_total_requests logs = (logs.map fun p => p.2.length).sum ∧
    stats_cache_items cache = cache.length ∧
    stats_max_age ts ∈ ts.map Prod.snd ∧
    ∀ x ∈ ts.map Prod.snd, x ≤ stats_max_age ts := by
  have hne : ts.map Prod.snd ≠ [] := by
    intro hnil
    exact h (List.map_eq_nil_iff.mp hnil)
  obtain ⟨a, ha⟩ : ∃ a, (ts.map Prod.snd).max? = some a := by
    cases hm : (ts.map Prod.snd).max? with
    | none => exact absurd (List.max?_eq_none_iff.mp hm) hne
    | some a => exact ⟨a, rfl⟩
  have hmem : a ∈ ts.map Prod.snd :=
    List.max?_mem (fun x y => max_choice x y) ha
  have hle : ∀ x ∈ ts.map Prod.snd, x ≤ a := by
    intro x hx
    exact ((List.max?_le_iff (fun x y z => max_le_iff) ha).mp le_rfl) x hx
  refine ⟨rfl, rfl, rfl, ?_, ?_⟩
  · simpa [stats_max_age, ha] using hmem
  · simpa [stats_max_age, ha] using hle

/-- Witness for C10's amended statement on two concrete entries. -/
theorem C10_stats_witness :
    stats_max_age [([1], 10), ([2], 20)] ∈
      ([([1], 10), ([2], 20)] : List (List Nat × Int)).map Prod.snd := by
  exact (C10_stats_fields [] [] [([1], 10), ([2], 20)] (by decide)).2.2.2.1

end HsSocialApi
